import Mathlib

/-!
Verification of webcv-platform, `src-wasm/index.cpp`.

A shallow embedding of the calibration and cross-view mapping entry points.

Conventions of the embedding.

* A `float`/`double` cell is an exact rational; casts between the two widths and
  `convertTo(CV_32F)` are the identity on values.
* A raw pointer handed in by the host is a `Buf β`: the content of the memory it
  points to, indexed by cell offset.  `memcpy` into a destination overwrites a
  prefix of it and leaves every other cell as it was.
* A `cv::Mat` is continuous and row-major: `rows`, `cols`, `channels`, and the
  list of its scalar cells.  `cv::Mat::at` is unchecked pointer arithmetic in the
  source; here a read past the extent yields `0`.
* `std::vector::operator[]` past the end and a `cv::Mat` built with a negative
  dimension do not produce a value: the embedding returns `none` there.
* OpenCV routines (`cv::findChessboardCorners`, `cv::calibrateCamera`,
  `cv::fisheye::calibrate`, `cv::undistortPoints`, `cv::findHomography`,
  `cv::cvtColor`, `std::sqrt`) are not code of the repository; each function
  takes the ones it calls as parameters.
-/

namespace WebCV

/-! ## Data model -/

/-- Memory seen through a raw pointer: cell offset to content. -/
abbrev Buf (β : Type) := Nat → β

/-- The type `cv::Point2f`. -/
structure Point2f where
  x : ℚ
  y : ℚ
deriving DecidableEq, Repr

/-- The type `cv::Point3f`. -/
structure Point3f where
  x : ℚ
  y : ℚ
  z : ℚ
deriving DecidableEq, Repr

/-- A continuous `cv::Mat`: `rows × cols` elements of `channels` scalars each. -/
structure Mat (β : Type) where
  rows : Nat
  cols : Nat
  channels : Nat
  data : List β
deriving DecidableEq, Repr

namespace Mat

/-- The value `cv::Mat()`: no rows, no data. -/
def nil {β : Type} : Mat β := ⟨0, 0, 1, []⟩

/-- Number of scalar cells, `total() * elemSize()` counted in cells. -/
def cells {β : Type} (m : Mat β) : Nat := m.rows * m.cols * m.channels

/-- The test `mat.empty()`. -/
def empty {β : Type} (m : Mat β) : Bool := m.rows * m.cols == 0

/-- Read `at<float>(i)` (also `at<uchar>(i)`) of a continuous matrix. -/
def at1 {β : Type} [Zero β] (m : Mat β) (i : Nat) : β := m.data.getD i 0

/-- Read `at<float>(r, c)` of a single-channel matrix. -/
def atRC {β : Type} [Zero β] (m : Mat β) (r c : Nat) : β := m.data.getD (r * m.cols + c) 0

/-- Read `at<cv::Vec2f>(i)` (also `at<cv::Point2f>(i)`) of a continuous matrix. -/
def atVec2f (m : Mat ℚ) (i : Nat) : Point2f := ⟨m.data.getD (2 * i) 0, m.data.getD (2 * i + 1) 0⟩

/-- The call `m.convertTo(r, CV_32F)`: same shape, same values. -/
def convertTo (m : Mat ℚ) : Mat ℚ := m

/-- The value `cv::Mat::zeros(rows, cols, CV_64F)`. -/
def zeros (rows cols : Nat) : Mat ℚ := ⟨rows, cols, 1, List.replicate (rows * cols) 0⟩

/-- The value `cv::Mat::eye(rows, cols, CV_64F)`. -/
def eye (rows cols : Nat) : Mat ℚ :=
  ⟨rows, cols, 1,
    (List.range rows).flatMap fun r => (List.range cols).map fun c => if r = c then 1 else 0⟩

/-- Assignment `m.at<double>(r, c) = v`. -/
def set (m : Mat ℚ) (r c : Nat) (v : ℚ) : Mat ℚ := { m with data := m.data.set (r * m.cols + c) v }

/-- Matrix product `A * B` of single-channel matrices. -/
def mul (A B : Mat ℚ) : Mat ℚ :=
  ⟨A.rows, B.cols, 1,
    (List.range A.rows).flatMap fun i =>
      (List.range B.cols).map fun j =>
        ((List.range A.cols).map fun k => A.atRC i k * B.atRC k j).sum⟩

end Mat

/-! ## Constants -/

def CHESS_NUM_X : Nat := 10
def CHESS_NUM_Y : Nat := 7
def BLOCK_SIZE : ℚ := 1

/-! ## Buffer and matrix codec -/

def getCanvasImgDataSize (width height : Nat) : Nat := width * height * 4 * 1

def readMat32F (pointer : Buf ℚ) (width height : Nat) : Mat ℚ :=
  ⟨height, width, 1, (List.range (width * height)).map pointer⟩

def readPointsVec2f (pointer : Buf ℚ) (length : Nat) : Mat ℚ :=
  ⟨length, 1, 2, (List.range (length * 2)).map pointer⟩

/-- The overload `writeMat(cv::Mat mat, void* dest)`: copy the cells of `mat` over the
start of `dest`. -/
def writeMat {β : Type} (mat : Mat β) (dest : Buf β) : Buf β :=
  fun i => if i < mat.cells then (mat.data[i]?).getD (dest i) else dest i

def readImg (pointer : Buf Nat) (width height : Nat) : Mat Nat :=
  ⟨height, width, 4, (List.range (getCanvasImgDataSize width height)).map pointer⟩

def vecPoint2f2Mat (vec : List Point2f) : Mat ℚ :=
  ⟨vec.length, 1, 2, vec.flatMap fun p => [p.x, p.y]⟩

def mat2VecPoint2f (mat : Mat ℚ) : List Point2f :=
  (List.range mat.rows).map fun i =>
    let point := mat.atVec2f i
    ⟨point.x, point.y⟩

/-! ## Chessboard object points -/

def buildChessObjectPoints (_objPts : List (List Point3f)) (nImages : Int) :
    List (List Point3f) :=
  let objPts : List (List Point3f) := []
  let corners_local : List Point3f :=
    (List.range (CHESS_NUM_X * CHESS_NUM_Y)).map fun j =>
      let x : ℚ := BLOCK_SIZE * ((j % CHESS_NUM_X : Nat) : ℚ)
      let y : ℚ := BLOCK_SIZE * ((j / CHESS_NUM_X : Nat) : ℚ)
      ⟨x, y, 0⟩
  objPts ++ List.replicate nImages.toNat corners_local

/-! ## OpenCV routines taken as parameters -/

/-- Flags `CALIB_CB_ADAPTIVE_THRESH`, `CALIB_CB_NORMALIZE_IMAGE`, `CALIB_CB_FAST_CHECK`. -/
def CALIB_CB_ADAPTIVE_THRESH : Nat := 1
def CALIB_CB_NORMALIZE_IMAGE : Nat := 2
def CALIB_CB_FAST_CHECK : Nat := 8

/-- The routine `cv::cvtColor(src, dst, cv::COLOR_RGBA2GRAY)`: the content of `dst` after
the call; `none` when it raises instead of returning. -/
abbrev CvtColorFn := Mat Nat → Option (Mat Nat)

/-- The routine `cv::findChessboardCorners(image, patternSize, corners, flags)`: the found
flag and the content of `corners` after the call; `none` when it raises instead of
returning. -/
abbrev DetectFn := Mat Nat → Nat × Nat → Nat → Option (Bool × List Point2f)

/-- What a calibration solver leaves behind when it returns. -/
structure CalibResult where
  rms : ℚ
  intr : Mat ℚ
  dist : Mat ℚ
  rvecs : List (Mat ℚ)
  tvecs : List (Mat ℚ)

/-- The routine `cv::calibrateCamera(objectPoints, imagePoints, imageSize, intr, dist, rvecs,
tvecs)`; `none` when it raises instead of returning. -/
abbrev CalibrateFn :=
  List (List Point3f) → List (List Point2f) → Int × Int → Mat ℚ → Mat ℚ → Option CalibResult

/-- The routine `cv::fisheye::calibrate(..., flags, criteria)`; the criteria are the pair
(maximal count, epsilon). -/
abbrev FisheyeCalibrateFn :=
  List (List Point3f) → List (List Point2f) → Int × Int → Mat ℚ → Mat ℚ → Nat → Nat × ℚ →
    Option CalibResult

/-- What `cv::undistortPoints(src, dst, cameraMatrix, distCoeffs, R, P)` does to one element
of `src`, as a function of `cameraMatrix`, `distCoeffs`, `R`, `P` and the element. -/
abbrev UndistortFn := Mat ℚ → Mat ℚ → Mat ℚ → Mat ℚ → Point2f → Point2f

/-- The routine `cv::undistortPoints`: `dst` has the shape of `src` and holds, element by
element, the image of `src` under the per-element map. -/
def cvUndistortPoints (elem : UndistortFn) (src cameraMatrix distCoeffs R P : Mat ℚ) : Mat ℚ :=
  ⟨src.rows, src.cols, 2,
    (List.range (src.rows * src.cols)).flatMap fun i =>
      let q := elem cameraMatrix distCoeffs R P (src.atVec2f i)
      [q.x, q.y]⟩

/-! ## Chessboard detection -/

def findChessboardCorners (cvtColor : CvtColorFn) (cvFindChessboardCorners : DetectFn)
    (pointer : Buf Nat) (width height : Int) (corners_img_dest : Buf ℚ) :
    Option (Bool × Buf ℚ) :=
  if width < 0 ∨ height < 0 then none else
  let img := readImg pointer width.toNat height.toNat
  let chess_img := img
  match cvtColor chess_img with
  | none => none
  | some _grayImg =>
    match cvFindChessboardCorners chess_img (CHESS_NUM_X, CHESS_NUM_Y)
        (CALIB_CB_ADAPTIVE_THRESH + CALIB_CB_NORMALIZE_IMAGE + CALIB_CB_FAST_CHECK) with
    | none => none
    | some (found, image_points) =>
      if found then
        some (true, writeMat (vecPoint2f2Mat image_points) corners_img_dest)
      else
        some (false, corners_img_dest)

/-! ## Intrinsic calibration -/

/-- The loop, written out in each of the three calibration entry points, that reads the
`i`-th corner set (`CHESS_NUM_X * CHESS_NUM_Y` points) from the address `pointersPointer[i]`
for `i = 0 .. nPointer - 1`. -/
def readCornerSets (pointersPointer : Nat → Buf ℚ) (nPointer : Int) : List (List Point2f) :=
  (List.range nPointer.toNat).map fun i =>
    let pts := readPointsVec2f (pointersPointer i) (CHESS_NUM_X * CHESS_NUM_Y)
    mat2VecPoint2f pts

def calcInnerParams (calibrateCamera : CalibrateFn) (pointersPointer : Nat → Buf ℚ)
    (nPointer imgWidth imgHeight : Int) (intrMatrixDest distCoeffsDest : Buf ℚ) :
    Option (Bool × Buf ℚ × Buf ℚ) :=
  let intr := Mat.zeros 3 3
  let dist := Mat.zeros 8 1
  let intr := intr.set 0 2 ((imgWidth : ℚ) / 2)
  let intr := intr.set 1 2 ((imgHeight : ℚ) / 2)
  if nPointer = 0 then some (false, intrMatrixDest, distCoeffsDest) else
  let imageSize := (imgWidth, imgHeight)
  let corners_3d := buildChessObjectPoints [] nPointer
  let corners_imgs := readCornerSets pointersPointer nPointer
  match calibrateCamera corners_3d corners_imgs imageSize intr dist with
  | none => none
  | some res =>
    let intr := res.intr.convertTo
    let dist := res.dist.convertTo
    some (true, writeMat intr intrMatrixDest, writeMat dist distCoeffsDest)

/-- The loop that flattens `rvecs`/`tvecs` into two `nPointer × 3` matrices: row `i` of each
is the first three cells of the converted `rvecs[i]`, `tvecs[i]`. -/
def flattenPoses (rvecs tvecs : List (Mat ℚ)) (nPointer : Nat) : Option (Mat ℚ × Mat ℚ) :=
  let rows : Option (List (List ℚ × List ℚ)) :=
    (List.range nPointer).mapM fun i => do
      let r := (← rvecs[i]?).convertTo
      let t := (← tvecs[i]?).convertTo
      pure ((List.range 3).map fun k => r.at1 k, (List.range 3).map fun k => t.at1 k)
  rows.map fun rows =>
    (⟨nPointer, 3, 1, rows.flatMap fun rt => rt.1⟩, ⟨nPointer, 3, 1, rows.flatMap fun rt => rt.2⟩)

def calcInnerParamsExt (calibrateCamera : CalibrateFn) (pointersPointer : Nat → Buf ℚ)
    (nPointer imgWidth imgHeight : Int)
    (intrMatrixDest distCoeffsDest rvecsDest tvecsDest : Buf ℚ) :
    Option (Bool × Buf ℚ × Buf ℚ × Buf ℚ × Buf ℚ) :=
  if nPointer ≤ 0 then some (false, intrMatrixDest, distCoeffsDest, rvecsDest, tvecsDest) else
  let imageSize := (imgWidth, imgHeight)
  let objPts := buildChessObjectPoints [] nPointer
  let imgPts := readCornerSets pointersPointer nPointer
  let intr := Mat.eye 3 3
  let dist := Mat.zeros 8 1
  match calibrateCamera objPts imgPts imageSize intr dist with
  | none => none
  | some res =>
    let intr := res.intr.convertTo
    let dist := res.dist.convertTo
    match flattenPoses res.rvecs res.tvecs nPointer.toNat with
    | none => none
    | some (rv, tv) =>
      some (true, writeMat intr intrMatrixDest, writeMat dist distCoeffsDest,
        writeMat rv rvecsDest, writeMat tv tvecsDest)

def calcInnerParamsFisheyeExt (calibrate : FisheyeCalibrateFn) (pointersPointer : Nat → Buf ℚ)
    (nPointer imgWidth imgHeight : Int)
    (intrMatrixDest distCoeffsDest rvecsDest tvecsDest : Buf ℚ) :
    Option (Bool × Buf ℚ × Buf ℚ × Buf ℚ × Buf ℚ) :=
  if nPointer ≤ 0 then some (false, intrMatrixDest, distCoeffsDest, rvecsDest, tvecsDest) else
  let imageSize := (imgWidth, imgHeight)
  let objPts := buildChessObjectPoints [] nPointer
  let imgPts := readCornerSets pointersPointer nPointer
  let intr := Mat.eye 3 3
  let dist := Mat.zeros 4 1
  match calibrate objPts imgPts imageSize intr dist 0 (20, 1e-6) with
  | none => none
  | some res =>
    let intr := res.intr.convertTo
    let dist := res.dist.convertTo
    match flattenPoses res.rvecs res.tvecs nPointer.toNat with
    | none => none
    | some (rv, tv) =>
      some (true, writeMat intr intrMatrixDest, writeMat dist distCoeffsDest,
        writeMat rv rvecsDest, writeMat tv tvecsDest)

/-! ## Point undistortion -/

/-- The overload `undistortPoint(cv::Point2f, cv::Mat, cv::Mat)`. -/
def undistortPoint (cvUndistort : UndistortFn) (p : Point2f) (cameraMat distCoeffs : Mat ℚ) :
    Point2f :=
  let R : Mat ℚ := Mat.nil
  let mp : Mat ℚ := ⟨1, 1, 2, [p.x, p.y]⟩
  let dest := cvUndistortPoints cvUndistort mp cameraMat distCoeffs R cameraMat
  dest.atVec2f 0

def applyH (H : Mat ℚ) (p : Point2f) : Point2f :=
  let x := p.x
  let y := p.y
  let X := H.atRC 0 0 * x + H.atRC 0 1 * y + H.atRC 0 2
  let Y := H.atRC 1 0 * x + H.atRC 1 1 * y + H.atRC 1 2
  let Z := H.atRC 2 0 * x + H.atRC 2 1 * y + H.atRC 2 2
  let Z := if Z = 0 then 1e-6 else Z
  ⟨X / Z, Y / Z⟩

/-- One pass of the loop body of `calcHomographyUndistQuality` at index `i`, on the running
pair `(se, inliers)`. -/
def qualityStep (h : Mat ℚ) (inlierMask : Mat Nat) (aPts bPts : List Point2f)
    (acc : ℚ × Int) (i : Nat) : Option (ℚ × Int) :=
  if inlierMask.empty || inlierMask.at1 i != 0 then do
    let a ← aPts[i]?
    let b ← bPts[i]?
    let x := a.x
    let y := a.y
    let X := h.atRC 0 0 * x + h.atRC 0 1 * y + h.atRC 0 2
    let Y := h.atRC 1 0 * x + h.atRC 1 1 * y + h.atRC 1 2
    let Z := h.atRC 2 0 * x + h.atRC 2 1 * y + h.atRC 2 2
    let Z := if Z = 0 then 1e-6 else Z
    let p : Point2f := ⟨X / Z, Y / Z⟩
    let dx := p.x - b.x
    let dy := p.y - b.y
    pure (acc.1 + (dx * dx + dy * dy), acc.2 + 1)
  else
    pure acc

def Transform (cvUndistort : UndistortFn) (x y : Int)
    (homography cameraMat distCoeffs dest : Buf ℚ) : Buf ℚ :=
  let p : Point2f := ⟨(x : ℚ), (y : ℚ)⟩
  let h := readMat32F homography 3 3
  let intr := readMat32F cameraMat 3 3
  let dist := readMat32F distCoeffs 1 8
  let up := undistortPoint cvUndistort p intr dist
  let upm : Mat ℚ := ⟨3, 1, 1, [up.x, up.y, 1]⟩
  let result := h.mul upm
  let resultPoint : Point3f := ⟨result.at1 0, result.at1 1, result.at1 2⟩
  let destMat : Mat ℚ := ⟨1, 1, 3, [resultPoint.x, resultPoint.y, resultPoint.z]⟩
  writeMat destMat dest

/-- The two matrices `mapX`, `mapY` as they stand after the double loop of
`calcInterRemapUndist`. -/
def interRemapMats (cvUndistort : UndistortFn) (intrAm distAm H : Mat ℚ)
    (widthA heightA : Nat) : Mat ℚ × Mat ℚ :=
  let cell := fun (y x : Nat) =>
    let pA : Point2f := ⟨(x : ℚ), (y : ℚ)⟩
    let uA := undistortPoint cvUndistort pA intrAm distAm
    applyH H uA
  (⟨heightA, widthA, 1,
      (List.range heightA).flatMap fun y => (List.range widthA).map fun x => (cell y x).x⟩,
   ⟨heightA, widthA, 1,
      (List.range heightA).flatMap fun y => (List.range widthA).map fun x => (cell y x).y⟩)

def calcInterRemapUndist (cvUndistort : UndistortFn) (intrA distA : Buf ℚ) (widthA heightA : Int)
    (intrB distB : Buf ℚ) (_widthB _heightB : Int) (homographyAtoB mapXDest mapYDest : Buf ℚ) :
    Option (Buf ℚ × Buf ℚ) :=
  let intrAm := readMat32F intrA 3 3
  let distAm := readMat32F distA 1 8
  let _intrBm := readMat32F intrB 3 3
  let _distBm := readMat32F distB 1 8
  let H := readMat32F homographyAtoB 3 3
  if widthA < 0 ∨ heightA < 0 then none else
  let maps := interRemapMats cvUndistort intrAm distAm H widthA.toNat heightA.toNat
  some (writeMat maps.1 mapXDest, writeMat maps.2 mapYDest)

/-! ## Vocabulary of the statements -/

/-- Row `r` of `H` applied to the homogeneous point `(p.x, p.y, 1)`. -/
def Mat.rowDot (H : Mat ℚ) (r : Nat) (p : Point2f) : ℚ :=
  H.atRC r 0 * p.x + H.atRC r 1 * p.y + H.atRC r 2

/-- Squared distance between two points. -/
def sqDist (p q : Point2f) : ℚ := (p.x - q.x) * (p.x - q.x) + (p.y - q.y) * (p.y - q.y)

/-- A colour conversion that returns its input. -/
def sampleCvtColor : CvtColorFn := fun m => some m

/-- A detector that reports the grid as found, with two corner points. -/
def sampleDetectorFound : DetectFn := fun _ _ _ => some (true, [⟨1, 2⟩, ⟨3, 4⟩])

/-- A detector that reports the grid as not found, having left one stray point behind. -/
def sampleDetectorNotFound : DetectFn := fun _ _ _ => some (false, [⟨1, 2⟩])

/-- A buffer of zeros. -/
def zeroBuf : Buf ℚ := fun _ => 0

/-- A point buffer whose first point is `(1, 0)`. -/
def unitXBuf : Buf ℚ := fun i => if i = 0 then 1 else 0

/-- A solver that returns the matrices it was given and one zero pose. -/
def sampleSolver : CalibrateFn := fun _ _ _ intr dist =>
  some ⟨0, intr, dist, [⟨3, 1, 1, [0, 0, 0]⟩], [⟨3, 1, 1, [0, 0, 0]⟩]⟩

/-- The fisheye counterpart of `sampleSolver`. -/
def sampleFisheyeSolver : FisheyeCalibrateFn := fun _ _ _ intr dist _ _ =>
  some ⟨0, intr, dist, [⟨3, 1, 1, [0, 0, 0]⟩], [⟨3, 1, 1, [0, 0, 0]⟩]⟩

theorem interleave_length (v : List Point2f) :
    (v.flatMap fun p => [p.x, p.y]).length = 2 * v.length := by
  induction v with
  | nil => rfl
  | cons p v ih =>
    simp only [List.flatMap_cons, List.length_append, List.length_cons, List.length_nil, ih]
    omega

theorem interleave_getElem? (v : List Point2f) (j : Nat) :
    (v.flatMap fun p => [p.x, p.y])[2 * j]? = v[j]?.map (fun p => p.x) ∧
    (v.flatMap fun p => [p.x, p.y])[2 * j + 1]? = v[j]?.map (fun p => p.y) := by
  induction v generalizing j with
  | nil => simp
  | cons p v ih =>
    cases j with
    | zero => simp
    | succ j =>
      have h1 : 2 * (j + 1) = (2 * j) + 1 + 1 := by omega
      have h2 : 2 * (j + 1) + 1 = (2 * j + 1) + 1 + 1 := by omega
      obtain ⟨ihx, ihy⟩ := ih j
      constructor
      · rw [h1]; simpa using ihx
      · rw [h2]; simpa using ihy

theorem vecPoint2f2Mat_cells (v : List Point2f) : (vecPoint2f2Mat v).cells = 2 * v.length := by
  simp [vecPoint2f2Mat, Mat.cells]; omega

theorem writeMat_vecPoint2f2Mat_ge (v : List Point2f) (dest : Buf ℚ) (i : Nat)
    (h : 2 * v.length ≤ i) : writeMat (vecPoint2f2Mat v) dest i = dest i := by
  unfold writeMat
  rw [vecPoint2f2Mat_cells, if_neg (by omega)]

theorem writeMat_vecPoint2f2Mat_pair (v : List Point2f) (dest : Buf ℚ) (j : Nat)
    (h : j < v.length) :
    writeMat (vecPoint2f2Mat v) dest (2 * j) = (v.get ⟨j, h⟩).x ∧
    writeMat (vecPoint2f2Mat v) dest (2 * j + 1) = (v.get ⟨j, h⟩).y := by
  obtain ⟨hx, hy⟩ := interleave_getElem? v j
  unfold writeMat
  rw [vecPoint2f2Mat_cells, if_pos (by omega), if_pos (by omega)]
  simp only [vecPoint2f2Mat, hx, hy, List.getElem?_eq_getElem h, Option.map_some',
    Option.getD_some, List.get_eq_getElem, and_self]

theorem mat2VecPoint2f_readPointsVec2f (buf : Buf ℚ) (n : Nat) :
    mat2VecPoint2f (readPointsVec2f buf n)
      = (List.range n).map fun i => (⟨buf (2 * i), buf (2 * i + 1)⟩ : Point2f) := by
  unfold mat2VecPoint2f readPointsVec2f Mat.atVec2f
  apply List.map_congr_left
  intro i hi
  have hi' : i < n := List.mem_range.mp hi
  have h1 : 2 * i < n * 2 := by omega
  have h2 : 2 * i + 1 < n * 2 := by omega
  simp [List.getD_eq_getElem?_getD, List.getElem?_map, List.getElem?_range h1,
    List.getElem?_range h2]

/-! ## Auxiliary facts about the object-point grid -/

/-- The grid that `buildChessObjectPoints` pushes once per image. -/
theorem buildChessObjectPoints_eq (objPts : List (List Point3f)) (nImages : Int) :
    buildChessObjectPoints objPts nImages
      = List.replicate nImages.toNat
          ((List.range 70).map fun j =>
            (⟨((j % 10 : Nat) : ℚ), ((j / 10 : Nat) : ℚ), 0⟩ : Point3f)) := by
  simp [buildChessObjectPoints, CHESS_NUM_X, CHESS_NUM_Y, BLOCK_SIZE]

theorem grid_point_injective :
    Function.Injective fun j : Nat =>
      (⟨((j % 10 : Nat) : ℚ), ((j / 10 : Nat) : ℚ), 0⟩ : Point3f) := by
  intro a b hab
  simp only [Point3f.mk.injEq, Nat.cast_inj, and_true] at hab
  have ha := Nat.div_add_mod a 10
  have hb := Nat.div_add_mod b 10
  omega

/-! ## Auxiliary facts about the calibration entry points -/

theorem mapM_option_isSome {α β : Type} (f : α → Option β) (l : List α)
    (h : ∀ a ∈ l, ∃ b, f a = some b) : ∃ bs, l.mapM f = some bs := by
  induction l with
  | nil => exact ⟨[], rfl⟩
  | cons a l ih =>
    obtain ⟨b, hb⟩ := h a (List.mem_cons_self a l)
    obtain ⟨bs, hbs⟩ := ih fun a ha => h a (List.mem_cons_of_mem _ ha)
    refine ⟨b :: bs, ?_⟩
    rw [List.mapM_cons, hb, hbs]
    rfl

theorem flattenPoses_isSome (rvecs tvecs : List (Mat ℚ)) (n : Nat)
    (hr : n ≤ rvecs.length) (ht : n ≤ tvecs.length) :
    ∃ rv tv, flattenPoses rvecs tvecs n = some (rv, tv) := by
  unfold flattenPoses
  obtain ⟨rows, hrows⟩ := mapM_option_isSome
    (fun i => do
      let r := (← rvecs[i]?).convertTo
      let t := (← tvecs[i]?).convertTo
      pure ((List.range 3).map fun k => r.at1 k, (List.range 3).map fun k => t.at1 k))
    (List.range n)
    (by
      intro i hi
      have hi' : i < n := List.mem_range.mp hi
      have h1 : i < rvecs.length := by omega
      have h2 : i < tvecs.length := by omega
      simp [List.getElem?_eq_getElem h1, List.getElem?_eq_getElem h2])
  simp only [hrows]
  exact ⟨_, _, rfl⟩

/-! ## Auxiliary facts about row-major grids -/

theorem grid_length {β : Type} (f : Nat → Nat → β) (h w : Nat) :
    ((List.range h).flatMap fun y => (List.range w).map (f y)).length = h * w := by
  induction h with
  | zero => simp
  | succ h ih =>
    rw [List.range_succ, List.flatMap_append, List.length_append, ih]
    simp [Nat.succ_mul]

theorem grid_getElem? {β : Type} (f : Nat → Nat → β) (h w y x : Nat) (hy : y < h) (hx : x < w) :
    ((List.range h).flatMap fun y => (List.range w).map (f y))[y * w + x]? = some (f y x) := by
  induction h with
  | zero => omega
  | succ h ih =>
    rw [List.range_succ, List.flatMap_append]
    by_cases hlt : y < h
    · have hidx : y * w + x < h * w := by
        have : (y + 1) * w ≤ h * w := Nat.mul_le_mul_right w hlt
        rw [Nat.succ_mul] at this
        omega
      rw [List.getElem?_append_left (by rw [grid_length]; exact hidx)]
      exact ih hlt
    · have hyh : y = h := by omega
      subst hyh
      rw [List.getElem?_append_right (by rw [grid_length]; omega), grid_length]
      simp [hx]

theorem writeMat_grid {β : Type} (f : Nat → Nat → β) (h w : Nat) (dest : Buf β) :
    (∀ y x, y < h → x < w →
      writeMat ⟨h, w, 1, (List.range h).flatMap fun y => (List.range w).map (f y)⟩ dest
        (y * w + x) = f y x) ∧
    (∀ i, h * w ≤ i →
      writeMat ⟨h, w, 1, (List.range h).flatMap fun y => (List.range w).map (f y)⟩ dest i
        = dest i) := by
  constructor
  · intro y x hy hx
    have hidx : y * w + x < h * w := by
      have : (y + 1) * w ≤ h * w := Nat.mul_le_mul_right w hy
      rw [Nat.succ_mul] at this
      omega
    unfold writeMat
    rw [if_pos (by simpa [Mat.cells] using hidx), grid_getElem? f h w y x hy hx]
    rfl
  · intro i hi
    unfold writeMat
    rw [if_neg (by simpa [Mat.cells] using hi)]

theorem calcInterRemapUndist_some (cvUndistort : UndistortFn) (intrA distA : Buf ℚ)
    (widthA heightA : Nat) (intrB distB : Buf ℚ) (widthB heightB : Int)
    (homographyAtoB mapXDest mapYDest : Buf ℚ) :
    calcInterRemapUndist cvUndistort intrA distA widthA heightA intrB distB widthB heightB
        homographyAtoB mapXDest mapYDest
      = some (writeMat (interRemapMats cvUndistort (readMat32F intrA 3 3)
                (readMat32F distA 1 8) (readMat32F homographyAtoB 3 3) widthA heightA).1
                mapXDest,
              writeMat (interRemapMats cvUndistort (readMat32F intrA 3 3)
                (readMat32F distA 1 8) (readMat32F homographyAtoB 3 3) widthA heightA).2
                mapYDest) := by
  have hneg : ¬ ((widthA : Int) < 0 ∨ (heightA : Int) < 0) := by omega
  simp only [calcInterRemapUndist, if_neg hneg, Int.toNat_ofNat]

theorem interRemapMats_cell (cvUndistort : UndistortFn) (intrAm distAm H : Mat ℚ)
    (widthA heightA : Nat) (mapXDest mapYDest : Buf ℚ) (x y : Nat)
    (hx : x < widthA) (hy : y < heightA) :
    writeMat (interRemapMats cvUndistort intrAm distAm H widthA heightA).1 mapXDest
        (y * widthA + x)
      = (applyH H (undistortPoint cvUndistort ⟨(x : ℚ), (y : ℚ)⟩ intrAm distAm)).x ∧
    writeMat (interRemapMats cvUndistort intrAm distAm H widthA heightA).2 mapYDest
        (y * widthA + x)
      = (applyH H (undistortPoint cvUndistort ⟨(x : ℚ), (y : ℚ)⟩ intrAm distAm)).y := by
  simp only [interRemapMats]
  rw [(writeMat_grid _ heightA widthA mapXDest).1 y x hy hx,
    (writeMat_grid _ heightA widthA mapYDest).1 y x hy hx]
  exact ⟨rfl, rfl⟩

theorem Transform_cells (cvUndistort : UndistortFn) (x y : Int)
    (homography cameraMat distCoeffs dest : Buf ℚ) (r : Nat) (hr : r < 3) :
    Transform cvUndistort x y homography cameraMat distCoeffs dest r
      = (readMat32F homography 3 3).rowDot r
          (undistortPoint cvUndistort ⟨(x : ℚ), (y : ℚ)⟩
            (readMat32F cameraMat 3 3) (readMat32F distCoeffs 1 8)) := by
  have h3 : List.range 3 = [0, 1, 2] := rfl
  have h1 : List.range 1 = [0] := rfl
  have h9 : List.range (3 * 3) = [0, 1, 2, 3, 4, 5, 6, 7, 8] := rfl
  interval_cases r <;>
    (simp [Transform, writeMat, Mat.cells, Mat.mul, Mat.rowDot, Mat.atRC, Mat.at1, readMat32F,
      h3, h1, h9]
     ring)

theorem qualityStep_eq (H : Mat ℚ) (inlierMask : Mat Nat) (aPts bPts : List Point2f)
    (acc : ℚ × Int) (i : Nat) :
    qualityStep H inlierMask aPts bPts acc i
      = if inlierMask.empty || inlierMask.at1 i != 0 then
          (aPts[i]?).bind fun a => (bPts[i]?).bind fun b =>
            some (acc.1 + sqDist (applyH H a) b, acc.2 + 1)
        else some acc := by
  unfold qualityStep
  split
  · cases aPts[i]? <;> cases bPts[i]? <;> rfl
  · rfl

/-- C9. The point-set codec round-trips: for every list `v` of 2D points and every prior
content of the destination, `writeMat(vecPoint2f2Mat(v))` leaves the flat sequence
`x0, y0, x1, y1, ...` in the first `2 * |v|` cells (cell `2j` is `v[j].x`, cell `2j+1` is
`v[j].y`), touches no later cell, and `mat2VecPoint2f(readPointsVec2f(buffer, |v|))` is `v`
again, same length and order. -/
theorem C9_codec_roundtrip (v : List Point2f) (dest : Buf ℚ) :
    (List.range (2 * v.length)).map (writeMat (vecPoint2f2Mat v) dest)
        = (v.flatMap fun p => [p.x, p.y]) ∧
    ((List.range (2 * v.length)).map (writeMat (vecPoint2f2Mat v) dest)).length
        = 2 * v.length ∧
    (∀ j (h : j < v.length),
        writeMat (vecPoint2f2Mat v) dest (2 * j) = (v.get ⟨j, h⟩).x ∧
        writeMat (vecPoint2f2Mat v) dest (2 * j + 1) = (v.get ⟨j, h⟩).y) ∧
    (∀ i, 2 * v.length ≤ i → writeMat (vecPoint2f2Mat v) dest i = dest i) ∧
    mat2VecPoint2f (readPointsVec2f (writeMat (vecPoint2f2Mat v) dest) v.length) = v := by
  refine ⟨?_, by simp, writeMat_vecPoint2f2Mat_pair v dest,
    writeMat_vecPoint2f2Mat_ge v dest, ?_⟩
  · apply List.ext_getElem?
    intro i
    by_cases hi : i < 2 * v.length
    · rw [List.getElem?_map, List.getElem?_range hi]
      have hc : i < (vecPoint2f2Mat v).cells := by rw [vecPoint2f2Mat_cells]; exact hi
      have hl : i < (v.flatMap fun p => [p.x, p.y]).length := by
        rw [interleave_length]; exact hi
      have hw : writeMat (vecPoint2f2Mat v) dest i = (v.flatMap fun p => [p.x, p.y])[i] := by
        unfold writeMat
        rw [if_pos hc]
        simp [vecPoint2f2Mat, List.getElem?_eq_getElem hl]
      simp [hw, List.getElem?_eq_getElem hl]
    · have hl : (v.flatMap fun p => [p.x, p.y]).length ≤ i := by
        rw [interleave_length]; omega
      rw [List.getElem?_eq_none hl, List.getElem?_eq_none (by simp; omega)]
  · rw [mat2VecPoint2f_readPointsVec2f]
    apply List.ext_getElem?
    intro j
    by_cases hj : j < v.length
    · obtain ⟨hx, hy⟩ := writeMat_vecPoint2f2Mat_pair v dest j hj
      rw [List.getElem?_map, List.getElem?_range hj, List.getElem?_eq_getElem hj]
      simp [hx, hy]
    · rw [List.getElem?_eq_none (by simp; omega), List.getElem?_eq_none (by omega)]

/-- C7. For every `nImages >= 0`, `buildChessObjectPoints` yields exactly `nImages` point
sets, all equal to one another, whatever the output vector held before; each set has 70
points, the `j`-th being `(j mod 10, j div 10, 0)`, so every point has `z = 0`, `x` in `0..9`
and `y` in `0..6`, and the 70 points are pairwise distinct. -/
theorem C7_buildChessObjectPoints (objPts : List (List Point3f)) (nImages : Int)
    (hn : 0 ≤ nImages) :
    ((buildChessObjectPoints objPts nImages).length : Int) = nImages ∧
    (∀ other, buildChessObjectPoints other nImages = buildChessObjectPoints objPts nImages) ∧
    (∀ s ∈ buildChessObjectPoints objPts nImages,
      ∀ t ∈ buildChessObjectPoints objPts nImages, s = t) ∧
    (∀ s ∈ buildChessObjectPoints objPts nImages,
      s.length = 70 ∧
      (∀ j, j < 70 → s[j]? = some (⟨((j % 10 : Nat) : ℚ), ((j / 10 : Nat) : ℚ), 0⟩ : Point3f)) ∧
      (∀ p ∈ s, p.z = 0 ∧ ∃ a b : Nat, a ≤ 9 ∧ b ≤ 6 ∧ p.x = (a : ℚ) ∧ p.y = (b : ℚ)) ∧
      s.Nodup) := by
  refine ⟨?_, ?_, ?_, ?_⟩
  · rw [buildChessObjectPoints_eq, List.length_replicate]
    exact Int.toNat_of_nonneg hn
  · intro other
    rw [buildChessObjectPoints_eq, buildChessObjectPoints_eq]
  · intro s hs t ht
    rw [buildChessObjectPoints_eq] at hs ht
    rw [List.eq_of_mem_replicate hs, List.eq_of_mem_replicate ht]
  · intro s hs
    rw [buildChessObjectPoints_eq] at hs
    rw [List.eq_of_mem_replicate hs]
    refine ⟨by simp, ?_, ?_, ?_⟩
    · intro j hj
      rw [List.getElem?_map, List.getElem?_range hj]
      rfl
    · intro p hp
      obtain ⟨j, hj, rfl⟩ := List.mem_map.mp hp
      have hj' : j < 70 := List.mem_range.mp hj
      exact ⟨rfl, j % 10, j / 10, by omega, by omega, rfl, rfl⟩
    · exact (List.nodup_range 70).map grid_point_injective

/-- C7 at a concrete input: three images, over a vector that held one stale point set. -/
theorem C7_buildChessObjectPoints_witness :
    (0 : Int) ≤ 3 ∧
    ((buildChessObjectPoints [[⟨5, 5, 5⟩]] 3).length : Int) = 3 ∧
    (∀ other, buildChessObjectPoints other 3 = buildChessObjectPoints [[⟨5, 5, 5⟩]] 3) ∧
    (∀ s ∈ buildChessObjectPoints [[⟨5, 5, 5⟩]] 3,
      ∀ t ∈ buildChessObjectPoints [[⟨5, 5, 5⟩]] 3, s = t) ∧
    (∀ s ∈ buildChessObjectPoints [[⟨5, 5, 5⟩]] 3,
      s.length = 70 ∧
      (∀ j, j < 70 → s[j]? = some (⟨((j % 10 : Nat) : ℚ), ((j / 10 : Nat) : ℚ), 0⟩ : Point3f)) ∧
      (∀ p ∈ s, p.z = 0 ∧ ∃ a b : Nat, a ≤ 9 ∧ b ≤ 6 ∧ p.x = (a : ℚ) ∧ p.y = (b : ℚ)) ∧
      s.Nodup) :=
  ⟨by decide, C7_buildChessObjectPoints [[⟨5, 5, 5⟩]] 3 (by decide)⟩

/-- C1. `calcInnerParams` called with `N = 0` corner sets returns false and leaves both
output buffers (intrinsics and distortion) as they were, for every image width and height,
every prior content of the output buffers and every solver. -/
theorem C1_calcInnerParams_zero (calibrateCamera : CalibrateFn) (pointersPointer : Nat → Buf ℚ)
    (imgWidth imgHeight : Int) (intrMatrixDest distCoeffsDest : Buf ℚ) :
    calcInnerParams calibrateCamera pointersPointer 0 imgWidth imgHeight
        intrMatrixDest distCoeffsDest
      = some (false, intrMatrixDest, distCoeffsDest) := by
  simp [calcInnerParams]

/-- C2. `calcInnerParamsExt` and `calcInnerParamsFisheyeExt` return false for every
`N <= 0` and then leave all four output buffers (intrinsics, distortion, rotations,
translations) as they were; for every `N > 0` on which the solver returns, with one
rotation and one translation per view, they return true. -/
theorem C2_calcInnerParamsExt_status (calibrateCamera : CalibrateFn)
    (calibrate : FisheyeCalibrateFn) (pointersPointer : Nat → Buf ℚ)
    (nPointer imgWidth imgHeight : Int)
    (intrMatrixDest distCoeffsDest rvecsDest tvecsDest : Buf ℚ) :
    (nPointer ≤ 0 →
      calcInnerParamsExt calibrateCamera pointersPointer nPointer imgWidth imgHeight
          intrMatrixDest distCoeffsDest rvecsDest tvecsDest
        = some (false, intrMatrixDest, distCoeffsDest, rvecsDest, tvecsDest) ∧
      calcInnerParamsFisheyeExt calibrate pointersPointer nPointer imgWidth imgHeight
          intrMatrixDest distCoeffsDest rvecsDest tvecsDest
        = some (false, intrMatrixDest, distCoeffsDest, rvecsDest, tvecsDest)) ∧
    (0 < nPointer →
      (∀ res,
        calibrateCamera (buildChessObjectPoints [] nPointer)
            (readCornerSets pointersPointer nPointer) (imgWidth, imgHeight)
            (Mat.eye 3 3) (Mat.zeros 8 1) = some res →
        res.rvecs.length = nPointer.toNat → res.tvecs.length = nPointer.toNat →
        ∃ out,
          calcInnerParamsExt calibrateCamera pointersPointer nPointer imgWidth imgHeight
            intrMatrixDest distCoeffsDest rvecsDest tvecsDest = some (true, out)) ∧
      (∀ res,
        calibrate (buildChessObjectPoints [] nPointer)
            (readCornerSets pointersPointer nPointer) (imgWidth, imgHeight)
            (Mat.eye 3 3) (Mat.zeros 4 1) 0 (20, 1e-6) = some res →
        res.rvecs.length = nPointer.toNat → res.tvecs.length = nPointer.toNat →
        ∃ out,
          calcInnerParamsFisheyeExt calibrate pointersPointer nPointer imgWidth imgHeight
            intrMatrixDest distCoeffsDest rvecsDest tvecsDest = some (true, out))) := by
  refine ⟨fun hN => ⟨?_, ?_⟩, fun hN => ⟨?_, ?_⟩⟩
  · simp [calcInnerParamsExt, hN]
  · simp [calcInnerParamsFisheyeExt, hN]
  · intro res hres hr ht
    obtain ⟨rv, tv, hflat⟩ :=
      flattenPoses_isSome res.rvecs res.tvecs nPointer.toNat (by omega) (by omega)
    have hN' : ¬ nPointer ≤ 0 := by omega
    simp only [calcInnerParamsExt, if_neg hN', hres, hflat]
    exact ⟨_, rfl⟩
  · intro res hres hr ht
    obtain ⟨rv, tv, hflat⟩ :=
      flattenPoses_isSome res.rvecs res.tvecs nPointer.toNat (by omega) (by omega)
    have hN' : ¬ nPointer ≤ 0 := by omega
    simp only [calcInnerParamsFisheyeExt, if_neg hN', hres, hflat]
    exact ⟨_, rfl⟩

/-- C5. Homography application is total and guarded: for every matrix `H` read as 3x3 and
every point, with `X`, `Y`, `Z` the three rows of `H` applied to `(x, y, 1)`, `applyH`
returns `(X/Z, Y/Z)` when `Z != 0` and `(X/1e-6, Y/1e-6)` when `Z = 0`, so the divisor it
uses is never zero; and the loop body of `calcHomographyUndistQuality` scores an inlier
with exactly the point `applyH` computes. -/
theorem C5_applyH_guarded (H : Mat ℚ) (p : Point2f) :
    (H.rowDot 2 p ≠ 0 →
      applyH H p = ⟨H.rowDot 0 p / H.rowDot 2 p, H.rowDot 1 p / H.rowDot 2 p⟩) ∧
    (H.rowDot 2 p = 0 → applyH H p = ⟨H.rowDot 0 p / 1e-6, H.rowDot 1 p / 1e-6⟩) ∧
    (∃ d : ℚ, d ≠ 0 ∧ applyH H p = ⟨H.rowDot 0 p / d, H.rowDot 1 p / d⟩) ∧
    (∀ (inlierMask : Mat Nat) (aPts bPts : List Point2f) (acc : ℚ × Int) (i : Nat),
      qualityStep H inlierMask aPts bPts acc i
        = if inlierMask.empty || inlierMask.at1 i != 0 then
            (aPts[i]?).bind fun a => (bPts[i]?).bind fun b =>
              some (acc.1 + sqDist (applyH H a) b, acc.2 + 1)
          else some acc) := by
  have hnz : H.rowDot 2 p ≠ 0 →
      applyH H p = ⟨H.rowDot 0 p / H.rowDot 2 p, H.rowDot 1 p / H.rowDot 2 p⟩ := by
    intro hZ
    unfold Mat.rowDot at hZ
    simp only [applyH, Mat.rowDot, if_neg hZ]
  have hz : H.rowDot 2 p = 0 → applyH H p = ⟨H.rowDot 0 p / 1e-6, H.rowDot 1 p / 1e-6⟩ := by
    intro hZ
    unfold Mat.rowDot at hZ
    simp only [applyH, Mat.rowDot, if_pos hZ]
  refine ⟨hnz, hz, ?_, ?_⟩
  · by_cases hZ : H.rowDot 2 p = 0
    · exact ⟨1e-6, by norm_num, hz hZ⟩
    · exact ⟨H.rowDot 2 p, hZ, hnz hZ⟩
  · intro inlierMask aPts bPts acc i
    exact qualityStep_eq H inlierMask aPts bPts acc i

/-- C3. For every `widthA, heightA >= 0` the call returns, and for every pixel `(x, y)` with
`x < widthA`, `y < heightA` the cell `y * widthA + x` of the two written maps is
`applyH(H, undistortPoint((x, y), intrA, distA))`; the map matrices have `heightA` rows and
`widthA` columns, exactly `widthA * heightA` cells of each destination are written, and the
result does not depend on `intrB`, `distB`, `widthB` or `heightB`. -/
theorem C3_calcInterRemapUndist (cvUndistort : UndistortFn) (intrA distA : Buf ℚ)
    (widthA heightA : Nat) (intrB distB : Buf ℚ) (widthB heightB : Int)
    (homographyAtoB mapXDest mapYDest : Buf ℚ) :
    ∃ mapX mapY,
      calcInterRemapUndist cvUndistort intrA distA widthA heightA intrB distB widthB heightB
        homographyAtoB mapXDest mapYDest = some (mapX, mapY) ∧
      (∀ x y, x < widthA → y < heightA →
        (⟨mapX (y * widthA + x), mapY (y * widthA + x)⟩ : Point2f)
          = applyH (readMat32F homographyAtoB 3 3)
              (undistortPoint cvUndistort ⟨(x : ℚ), (y : ℚ)⟩
                (readMat32F intrA 3 3) (readMat32F distA 1 8))) ∧
      (∀ i, widthA * heightA ≤ i → mapX i = mapXDest i ∧ mapY i = mapYDest i) ∧
      (let maps := interRemapMats cvUndistort (readMat32F intrA 3 3) (readMat32F distA 1 8)
          (readMat32F homographyAtoB 3 3) widthA heightA
       maps.1.rows = heightA ∧ maps.1.cols = widthA ∧ maps.1.data.length = heightA * widthA ∧
       maps.2.rows = heightA ∧ maps.2.cols = widthA ∧ maps.2.data.length = heightA * widthA ∧
       mapX = writeMat maps.1 mapXDest ∧ mapY = writeMat maps.2 mapYDest) ∧
      (∀ (intrB2 distB2 : Buf ℚ) (widthB2 heightB2 : Int),
        calcInterRemapUndist cvUndistort intrA distA widthA heightA intrB2 distB2 widthB2
          heightB2 homographyAtoB mapXDest mapYDest = some (mapX, mapY)) := by
  refine ⟨_, _, calcInterRemapUndist_some cvUndistort intrA distA widthA heightA intrB distB
    widthB heightB homographyAtoB mapXDest mapYDest, ?_, ?_, ?_, ?_⟩
  · intro x y hx hy
    obtain ⟨h1, h2⟩ := interRemapMats_cell cvUndistort (readMat32F intrA 3 3)
      (readMat32F distA 1 8) (readMat32F homographyAtoB 3 3) widthA heightA mapXDest mapYDest
      x y hx hy
    rw [h1, h2]
  · intro i hi
    simp only [interRemapMats]
    rw [Nat.mul_comm] at hi
    exact ⟨(writeMat_grid _ heightA widthA mapXDest).2 i hi,
      (writeMat_grid _ heightA widthA mapYDest).2 i hi⟩
  · simp only [interRemapMats, grid_length, and_self]
  · intro intrB2 distB2 widthB2 heightB2
    exact calcInterRemapUndist_some cvUndistort intrA distA widthA heightA intrB2 distB2
      widthB2 heightB2 homographyAtoB mapXDest mapYDest

/-- C10. `Transform` writes the undivided homogeneous point `(X, Y, Z) = H * (ux, uy, 1)`
with `(ux, uy) = undistortPoint((x, y), intr, dist)` and touches no other cell; when
`Z != 0`, `(X/Z, Y/Z)` is `applyH(H, undistortPoint((x, y), intr, dist))`, which is the cell
`calcInterRemapUndist` writes for the same pixel of any map that contains it; when `Z = 0`
`Transform` leaves `Z = 0` as it is while `applyH` divides by `1e-6`. -/
theorem C10_Transform_homogeneous (cvUndistort : UndistortFn) (x y : Int)
    (homography cameraMat distCoeffs dest : Buf ℚ) :
    Transform cvUndistort x y homography cameraMat distCoeffs dest 0
      = (readMat32F homography 3 3).rowDot 0
          (undistortPoint cvUndistort ⟨(x : ℚ), (y : ℚ)⟩
            (readMat32F cameraMat 3 3) (readMat32F distCoeffs 1 8)) ∧
    Transform cvUndistort x y homography cameraMat distCoeffs dest 1
      = (readMat32F homography 3 3).rowDot 1
          (undistortPoint cvUndistort ⟨(x : ℚ), (y : ℚ)⟩
            (readMat32F cameraMat 3 3) (readMat32F distCoeffs 1 8)) ∧
    Transform cvUndistort x y homography cameraMat distCoeffs dest 2
      = (readMat32F homography 3 3).rowDot 2
          (undistortPoint cvUndistort ⟨(x : ℚ), (y : ℚ)⟩
            (readMat32F cameraMat 3 3) (readMat32F distCoeffs 1 8)) ∧
    (∀ i, 3 ≤ i → Transform cvUndistort x y homography cameraMat distCoeffs dest i = dest i) ∧
    (Transform cvUndistort x y homography cameraMat distCoeffs dest 2 ≠ 0 →
      (⟨Transform cvUndistort x y homography cameraMat distCoeffs dest 0
          / Transform cvUndistort x y homography cameraMat distCoeffs dest 2,
        Transform cvUndistort x y homography cameraMat distCoeffs dest 1
          / Transform cvUndistort x y homography cameraMat distCoeffs dest 2⟩ : Point2f)
        = applyH (readMat32F homography 3 3)
            (undistortPoint cvUndistort ⟨(x : ℚ), (y : ℚ)⟩
              (readMat32F cameraMat 3 3) (readMat32F distCoeffs 1 8)) ∧
      ∀ (px py widthA heightA : Nat) (intrB distB : Buf ℚ) (widthB heightB : Int)
        (mapXDest mapYDest : Buf ℚ),
        x = (px : Int) → y = (py : Int) → px < widthA → py < heightA →
        ∃ mapX mapY,
          calcInterRemapUndist cvUndistort cameraMat distCoeffs widthA heightA intrB distB
            widthB heightB homography mapXDest mapYDest = some (mapX, mapY) ∧
          mapX (py * widthA + px)
            = Transform cvUndistort x y homography cameraMat distCoeffs dest 0
                / Transform cvUndistort x y homography cameraMat distCoeffs dest 2 ∧
          mapY (py * widthA + px)
            = Transform cvUndistort x y homography cameraMat distCoeffs dest 1
                / Transform cvUndistort x y homography cameraMat distCoeffs dest 2) ∧
    (Transform cvUndistort x y homography cameraMat distCoeffs dest 2 = 0 →
      applyH (readMat32F homography 3 3)
          (undistortPoint cvUndistort ⟨(x : ℚ), (y : ℚ)⟩
            (readMat32F cameraMat 3 3) (readMat32F distCoeffs 1 8))
        = ⟨Transform cvUndistort x y homography cameraMat distCoeffs dest 0 / 1e-6,
           Transform cvUndistort x y homography cameraMat distCoeffs dest 1 / 1e-6⟩) := by
  have h0 := Transform_cells cvUndistort x y homography cameraMat distCoeffs dest 0 (by omega)
  have h1 := Transform_cells cvUndistort x y homography cameraMat distCoeffs dest 1 (by omega)
  have h2 := Transform_cells cvUndistort x y homography cameraMat distCoeffs dest 2 (by omega)
  refine ⟨h0, h1, h2, ?_, ?_, ?_⟩
  · intro i hi
    simp only [Transform, writeMat, Mat.cells]
    rw [if_neg (by omega)]
  · intro hZ
    rw [h2] at hZ
    have happ : applyH (readMat32F homography 3 3)
          (undistortPoint cvUndistort ⟨(x : ℚ), (y : ℚ)⟩
            (readMat32F cameraMat 3 3) (readMat32F distCoeffs 1 8))
        = ⟨(readMat32F homography 3 3).rowDot 0
            (undistortPoint cvUndistort ⟨(x : ℚ), (y : ℚ)⟩
              (readMat32F cameraMat 3 3) (readMat32F distCoeffs 1 8))
            / (readMat32F homography 3 3).rowDot 2
            (undistortPoint cvUndistort ⟨(x : ℚ), (y : ℚ)⟩
              (readMat32F cameraMat 3 3) (readMat32F distCoeffs 1 8)),
          (readMat32F homography 3 3).rowDot 1
            (undistortPoint cvUndistort ⟨(x : ℚ), (y : ℚ)⟩
              (readMat32F cameraMat 3 3) (readMat32F distCoeffs 1 8))
            / (readMat32F homography 3 3).rowDot 2
            (undistortPoint cvUndistort ⟨(x : ℚ), (y : ℚ)⟩
              (readMat32F cameraMat 3 3) (readMat32F distCoeffs 1 8))⟩ := by
      unfold Mat.rowDot at hZ
      simp only [applyH, Mat.rowDot, if_neg hZ]
    refine ⟨by rw [h0, h1, h2, happ], ?_⟩
    intro px py widthA heightA intrB distB widthB heightB mapXDest mapYDest hx hy hpx hpy
    subst hx hy
    simp only [Int.cast_natCast] at h0 h1 h2 happ
    obtain ⟨c1, c2⟩ := interRemapMats_cell cvUndistort (readMat32F cameraMat 3 3)
      (readMat32F distCoeffs 1 8) (readMat32F homography 3 3) widthA heightA mapXDest mapYDest
      px py hpx hpy
    refine ⟨_, _, calcInterRemapUndist_some cvUndistort cameraMat distCoeffs widthA heightA intrB
      distB widthB heightB homography mapXDest mapYDest, ?_, ?_⟩
    · rw [c1, h0, h2, happ]
    · rw [c2, h1, h2, happ]
  · intro hZ
    rw [h0, h1]
    rw [h2] at hZ
    unfold Mat.rowDot at hZ
    simp only [applyH, Mat.rowDot, if_pos hZ]

/-- C8. On a `width x height` image on which the library routines return,
`findChessboardCorners` returns, and it returns true exactly when the grid detector, run on
the image for the 10x7 pattern, reports the grid as found; when it returns false the output
buffer is as it was, and when it returns true the buffer holds the detector's corner points
in the detector's order as interleaved `(x, y)` pairs, later cells untouched. -/
theorem C8_findChessboardCorners (cvtColor : CvtColorFn) (cvFindChessboardCorners : DetectFn)
    (pointer : Buf Nat) (width height : Nat) (corners_img_dest : Buf ℚ)
    (gray : Mat Nat) (found : Bool) (pts : List Point2f)
    (hgray : cvtColor (readImg pointer width height) = some gray)
    (hdet : cvFindChessboardCorners (readImg pointer width height) (10, 7) 11
      = some (found, pts)) :
    ∃ out,
      findChessboardCorners cvtColor cvFindChessboardCorners pointer width height
        corners_img_dest = some (found, out) ∧
      (found = false → out = corners_img_dest) ∧
      (found = true →
        (∀ j (h : j < pts.length),
          out (2 * j) = (pts.get ⟨j, h⟩).x ∧ out (2 * j + 1) = (pts.get ⟨j, h⟩).y) ∧
        (∀ i, 2 * pts.length ≤ i → out i = corners_img_dest i)) := by
  have hneg : ¬ ((width : Int) < 0 ∨ (height : Int) < 0) := by omega
  have hflags : CALIB_CB_ADAPTIVE_THRESH + CALIB_CB_NORMALIZE_IMAGE + CALIB_CB_FAST_CHECK = 11 :=
    rfl
  have hpat : (CHESS_NUM_X, CHESS_NUM_Y) = (10, 7) := rfl
  simp only [findChessboardCorners, if_neg hneg, Int.toNat_ofNat, hflags, hpat, hgray, hdet]
  cases found with
  | false =>
    refine ⟨corners_img_dest, by simp, fun _ => rfl, fun h => ?_⟩
    exact absurd h (by decide)
  | true =>
    refine ⟨writeMat (vecPoint2f2Mat pts) corners_img_dest, by simp,
      fun h => absurd h (by decide), fun _ => ⟨?_, ?_⟩⟩
    · intro j h
      exact writeMat_vecPoint2f2Mat_pair pts corners_img_dest j h
    · intro i hi
      exact writeMat_vecPoint2f2Mat_ge pts corners_img_dest i hi

/-- C8 at concrete inputs: a 2x1 image, once with a detector that finds two corners, once
with one that finds none. -/
theorem C8_findChessboardCorners_witness :
    (∃ out,
      findChessboardCorners sampleCvtColor sampleDetectorFound (fun _ => 0) 2 1 zeroBuf
        = some (true, out) ∧
      out 0 = 1 ∧ out 1 = 2 ∧ out 2 = 3 ∧ out 3 = 4 ∧ out 4 = 0) ∧
    findChessboardCorners sampleCvtColor sampleDetectorNotFound (fun _ => 0) 2 1 unitXBuf
      = some (false, unitXBuf) := by
  constructor
  · obtain ⟨out, hout, -, htrue⟩ := C8_findChessboardCorners sampleCvtColor sampleDetectorFound
      (fun _ => 0) 2 1 zeroBuf (readImg (fun _ => 0) 2 1) true [⟨1, 2⟩, ⟨3, 4⟩] rfl rfl
    obtain ⟨hpair, hrest⟩ := htrue rfl
    have h0 := hpair 0 (by decide)
    have h1 := hpair 1 (by decide)
    exact ⟨out, hout, h0.1, h0.2, h1.1, h1.2, hrest 4 (by decide)⟩
  · obtain ⟨out, hout, hfalse, -⟩ := C8_findChessboardCorners sampleCvtColor
      sampleDetectorNotFound (fun _ => 0) 2 1 unitXBuf (readImg (fun _ => 0) 2 1) false
      [⟨1, 2⟩] rfl rfl
    have hsame := hfalse rfl
    subst hsame
    exact hout

/-- C2 at concrete inputs: no view gives false with the buffers untouched, one view with a
solver that returns one pose gives true, for both entry points. -/
theorem C2_calcInnerParamsExt_status_witness :
    calcInnerParamsExt sampleSolver (fun _ => zeroBuf) 0 640 480 zeroBuf zeroBuf zeroBuf zeroBuf
      = some (false, zeroBuf, zeroBuf, zeroBuf, zeroBuf) ∧
    calcInnerParamsFisheyeExt sampleFisheyeSolver (fun _ => zeroBuf) 0 640 480 zeroBuf zeroBuf
        zeroBuf zeroBuf
      = some (false, zeroBuf, zeroBuf, zeroBuf, zeroBuf) ∧
    (∃ out,
      calcInnerParamsExt sampleSolver (fun _ => zeroBuf) 1 640 480 zeroBuf zeroBuf zeroBuf
        zeroBuf = some (true, out)) ∧
    (∃ out,
      calcInnerParamsFisheyeExt sampleFisheyeSolver (fun _ => zeroBuf) 1 640 480 zeroBuf zeroBuf
        zeroBuf zeroBuf = some (true, out)) :=
  ⟨((C2_calcInnerParamsExt_status sampleSolver sampleFisheyeSolver (fun _ => zeroBuf) 0 640 480
      zeroBuf zeroBuf zeroBuf zeroBuf).1 (by decide)).1,
   ((C2_calcInnerParamsExt_status sampleSolver sampleFisheyeSolver (fun _ => zeroBuf) 0 640 480
      zeroBuf zeroBuf zeroBuf zeroBuf).1 (by decide)).2,
   ((C2_calcInnerParamsExt_status sampleSolver sampleFisheyeSolver (fun _ => zeroBuf) 1 640 480
      zeroBuf zeroBuf zeroBuf zeroBuf).2 (by decide)).1 _ rfl rfl rfl,
   ((C2_calcInnerParamsExt_status sampleSolver sampleFisheyeSolver (fun _ => zeroBuf) 1 640 480
      zeroBuf zeroBuf zeroBuf zeroBuf).2 (by decide)).2 _ rfl rfl rfl⟩

end WebCV
